import Mathlib

/-!
Shallow embedding of loopback-explorer's `lib/route-helper.js` and
`lib/translate-keys.js`.  JavaScript values are modelled by `JVal`;
JavaScript objects (the parameter / return descriptors, which the code
manipulates generically) by association lists `JObj`.  Code that can throw
a `TypeError` (the single reachable site is `accepts.type[0]` in
`acceptToParameter`, reached when `type` is `undefined`/`null` while the
resolved swagger type is the string `"array"`) is embedded in
`Except String`.  All other field accesses in the source are guarded
(`x && x.y`, `x || []`) and the guards are mirrored verbatim.
-/

namespace RouteHelper

/-- A JavaScript value, as far as this module observes them: `undefined`,
`null`, booleans, (integral) numbers, strings, arrays, plain objects and
functions (kept opaque; the code only ever asks `typeof x === 'function'`). -/
inductive JVal where
  | undefined : JVal
  | null : JVal
  | bool : Bool → JVal
  | num : Int → JVal
  | str : String → JVal
  | arr : List JVal → JVal
  | obj : List (String × JVal) → JVal
  | fn : JVal

/-- A JavaScript object as an association list of fields (insertion order). -/
abbrev JObj := List (String × JVal)

/-- JavaScript truthiness: `undefined`, `null`, `false`, `0` and `''` are
falsy; every object, array and function is truthy. -/
def truthy : JVal → Bool
  | .undefined => false
  | .null => false
  | .bool b => b
  | .num n => n != 0
  | .str s => !s.isEmpty
  | .arr _ => true
  | .obj _ => true
  | .fn => true

/-- The check `typeof v === 'function'`. -/
def JVal.isFn : JVal → Bool
  | .fn => true
  | _ => false

/-- The check `Array.isArray(v)`. -/
def JVal.isArr : JVal → Bool
  | .arr _ => true
  | _ => false

/-- Strict equality `v === s` for a string literal `s` (strict equality against a string is
true exactly when `v` is that primitive string). -/
def isStr (v : JVal) (s : String) : Bool :=
  match v with
  | .str t => t == s
  | _ => false

mutual

/-- JavaScript `String(v)` coercion (functions kept opaque). -/
def jstring : JVal → String
  | .undefined => "undefined"
  | .null => "null"
  | .bool b => if b then "true" else "false"
  | .num n => toString n
  | .str s => s
  | .arr xs => String.intercalate "," (jstringList xs)
  | .obj _ => "[object Object]"
  | .fn => "function"

/-- JavaScript `Array.prototype.join(',')` stringifies elements, except that `null`
and `undefined` elements become the empty string. -/
def jstringList : List JVal → List String
  | [] => []
  | .null :: rest => "" :: jstringList rest
  | .undefined :: rest => "" :: jstringList rest
  | v :: rest => jstring v :: jstringList rest

end

/-- Read `o[k]`: first binding of `k`, or `undefined` when the key is absent. -/
def oGet : JObj → String → JVal
  | [], _ => .undefined
  | (k1, v) :: rest, k => if k1 = k then v else oGet rest k

/-- Presence `k in o`: does the object carry the key at all? -/
def oHas : JObj → String → Bool
  | [], _ => false
  | (k1, _) :: rest, k => k1 == k || oHas rest k

/-- Assignment `o[k] = v`: overwrite the existing binding in place, else append. -/
def oSet : JObj → String → JVal → JObj
  | [], k, v => [(k, v)]
  | (k1, v1) :: rest, k, v => if k1 = k then (k, v) :: rest else (k1, v1) :: oSet rest k v

/-- Deletion `delete o[k]`. -/
def oDel : JObj → String → JObj
  | [], _ => []
  | (k1, v) :: rest, k => if k1 = k then oDel rest k else (k1, v) :: oDel rest k

/-- Property access on an arbitrary value (`v.source` and friends).  The
source only dereferences a value after a truthiness or `typeof` guard, so
the `null`/`undefined` cases (which would throw in JavaScript) are never
reached by the definitions below; property reads on primitives yield
`undefined`, as in JavaScript. -/
def jGet : JVal → String → JVal
  | .obj fields, k => oGet fields k
  | _, _ => .undefined

/-- The `KEY_TRANSLATIONS` table of `translate-keys.js`, in the iteration
order of `Object.keys`: LDL key on the left, Swagger key on the right. -/
def KEY_TRANSLATIONS : List (String × String) :=
  [("doc", "description"), ("default", "defaultValue"), ("min", "minimum"), ("max", "maximum")]

/-- One iteration of the `forEach` body of `translateKeys`: read the LDL
key, if truthy write it (stringified for `min`/`max`) under the Swagger
key, and in every case delete the LDL key. -/
def translateKey (o : JObj) (p : String × String) : JObj :=
  let val := oGet o p.1
  let o1 := if truthy val then
      oSet o p.2 (if p.1 = "min" ∨ p.1 = "max" then .str (jstring val) else val)
    else o
  oDel o1 p.1

/-- The function `translateKeys(object)` from `translate-keys.js`: rename the four LDL
keys to their Swagger spellings, in table order, returning the updated
object. -/
def translateKeys (o : JObj) : JObj :=
  KEY_TRANSLATIONS.foldl translateKey o

/-- A strong-remoting `Route` as the converter reads it: `path`, `verb` and
`method` are always strings (every claim assumes them present, and the code
dereferences them unguarded); `accepts`, `returns` and `description` are
optional, with the source guarding each access (`x || []`, `x && x[0]`). -/
structure Route where
  path : String
  verb : String
  method : String
  accepts : Option (List JObj)
  returns : Option (List JObj)
  description : Option String

/-- The `sharedCtor` member of a remoting class: only its `accepts` list is
ever read. -/
structure SharedCtor where
  accepts : Option (List JObj)

/-- A strong-remoting class definition: `name` plus an optional shared
constructor. -/
structure ClassDef where
  name : String
  sharedCtor : Option SharedCtor

/-- A converted Swagger parameter: the `out` object built by
`acceptToParameter` (the `items` key is only attached in the
`out.type === 'array'` branch, hence `Option`). -/
structure Param where
  paramType : JVal
  name : JVal
  description : JVal
  type : JVal
  required : Bool
  defaultValue : JVal
  minimum : JVal
  maximum : JVal
  allowMultiple : Bool
  items : Option JVal

/-- A Swagger operation object as built by `routeToAPI`. -/
structure Operation where
  method : String
  nickname : String
  type : JVal
  items : JVal
  parameters : List Param
  responseMessages : List JVal
  summary : Option String
  notes : String

/-- A Swagger API record: a path plus its operations. -/
structure API where
  path : String
  operations : List Operation

/-- The accumulating API-declaration document. -/
structure Doc where
  apis : List API

/-- The check `s.indexOf(pat) !== -1`: naive substring containment. -/
def strContains (s pat : String) : Bool :=
  decide (List.IsInfix pat.toList s.toList)

/-- JavaScript `s.split(c)` on a character list: JavaScript split with a
one-character separator (the only separators the source uses are `'.'`
and `'/'`); the result is never empty. -/
def splitChars (c : Char) : List Char → List (List Char)
  | [] => [[]]
  | x :: rest =>
    if x = c then [] :: splitChars c rest
    else
      match splitChars c rest with
      | [] => [[x]]
      | g :: gs => (x :: g) :: gs

/-- JavaScript `s.split(c)` on a string. -/
def splitOnChar (c : Char) (s : String) : List String :=
  (splitChars c s.toList).map String.mk

/-- JavaScript `s.toLowerCase()` (ASCII, which covers every string the code compares
after lowering). -/
def toLowerStr (s : String) : String :=
  String.mk (s.toList.map Char.toLower)

/-- JavaScript `s.toUpperCase()` (ASCII). -/
def toUpperStr (s : String) : String :=
  String.mk (s.toList.map Char.toUpper)

/-- JavaScript `a || b`. -/
def jOr (a b : JVal) : JVal :=
  if truthy a then a else b

/-- The read `s.split('.')[0]` (a split result is never empty, so index 0 exists). -/
def headSegment (s : String) : String :=
  (splitOnChar '.' s).headD ""

/-- The accepts-concatenation step of `doRouteParameterHacks`: when the
class has shared-constructor accepts and the route's dotted `method` has
more than two segments, `route.accepts = (route.accepts || []).concat(classDef.sharedCtor.accepts)`;
otherwise `route.accepts` is left as it was. -/
def preAccepts (route : Route) (classDef : ClassDef) : Option (List JObj) :=
  match classDef.sharedCtor with
  | some sc =>
    match sc.accepts with
    | some scAccepts =>
      if (splitOnChar '.' route.method).length > 2 then
        some (route.accepts.getD [] ++ scAccepts)
      else route.accepts
    | none => route.accepts
  | none => route.accepts

/-- The filter callback of `doRouteParameterHacks`: keep an argument unless
its `http` is a function or its `http.source` is `'req'` or `'body'`;
arguments with a falsy `http` always pass. -/
def acceptFilter (arg : JObj) : Bool :=
  let httpv := oGet arg "http"
  if truthy httpv = false then true
  else if httpv.isFn then false
  else if isStr (jGet httpv "source") "req" || isStr (jGet httpv "source") "body" then false
  else true

/-- The return-type fixup of `doRouteParameterHacks`: when the first
`returns` entry has `arg === 'data'`, an `'object'` type becomes the class
name, and an `'array'` type stays `'array'` and gains
`items = \x7b '$ref': classDef.name \x7d`. -/
def returnsFixup (name : String) : List JObj → List JObj
  | [] => []
  | r0 :: rest =>
    if isStr (oGet r0 "arg") "data" then
      if isStr (oGet r0 "type") "object" then
        oSet r0 "type" (.str name) :: rest
      else if isStr (oGet r0 "type") "array" then
        oSet (oSet r0 "type" (.str "array")) "items" (.obj [("$ref", .str name)]) :: rest
      else r0 :: rest
    else r0 :: rest

/-- The function `doRouteParameterHacks(route, classDef)`: deep-copy the route (value
semantics make the copy implicit), append shared-constructor accepts for
deep methods, filter derived/request-bound arguments, fix up the first
`returns` entry, and run `translateKeys` over every accepts and returns
entry.  After this both `accepts` and `returns` are present (possibly
empty) lists. -/
def doRouteParameterHacks (route : Route) (classDef : ClassDef) : Route :=
  let accepts1 := preAccepts route classDef
  let accepts2 := (accepts1.getD []).filter acceptFilter
  let returns1 := route.returns.map (returnsFixup classDef.name)
  { route with
    accepts := some (accepts2.map translateKeys)
    returns := some ((returns1.getD []).map translateKeys) }

/-- The function `convertPathFragments(path)`: colon-style path parameters become
brace-style (`:id` to `\x7bid\x7d`), other fragments are untouched. -/
def convertPathFragments (path : String) : String :=
  String.intercalate "/" ((splitOnChar '/' path).map fun frag =>
    match frag.toList with
    | c :: rest => if c = ':' then "\x7b" ++ String.mk rest ++ "\x7d" else frag
    | [] => frag)

/-- The function `convertVerb(verb)`: `'all'` maps to POST, `'del'` to DELETE
(case-insensitively), anything else is uppercased. -/
def convertVerb (verb : String) : String :=
  if toLowerStr verb = "all" then "POST"
  else if toLowerStr verb = "del" then "DELETE"
  else toUpperStr verb

/-- The function `prepareDataType(type)`: falsy to `'void'`, an array value to
`'array'`, then the fixed primitive table (`buffer`/`date`/`number`),
anything else unchanged. -/
def prepareDataType (v : JVal) : JVal :=
  if truthy v = false then .str "void"
  else if v.isArr then .str "array"
  else if isStr v "buffer" then .str "byte"
  else if isStr v "date" then .str "Date"
  else if isStr v "number" then .str "double"
  else v

/-- Indexing `v[0]` as JavaScript evaluates it inside `acceptToParameter`: indexing
`undefined`/`null` throws a `TypeError`; a string yields its first
character as a one-character string (or `undefined` when empty); an array
yields its head (or `undefined`); an object looks up the property `"0"`;
other primitives yield `undefined`. -/
def jIndex0 : JVal → Except String JVal
  | .undefined => .error "TypeError: cannot read property 0 of undefined"
  | .null => .error "TypeError: cannot read property 0 of null"
  | .str s =>
    .ok (match s.toList with
         | [] => .undefined
         | c :: _ => .str (String.mk [c]))
  | .arr xs => .ok (xs.headD .undefined)
  | .obj fields => .ok (oGet fields "0")
  | .bool _ => .ok .undefined
  | .num _ => .ok .undefined
  | .fn => .ok .undefined

/-- The generator `acceptToParameter(route)(accepts)`: build the Swagger parameter for
one accepts entry.  The default `paramType` is `'query'` for GET else
`'form'`; a `:name` substring of the path overrides it to `'path'`; a
truthy `http.source` (guarded by `accepts.http && accepts.http.source`)
overrides it again, verbatim.  The type prefers `model`, falling back to
`prepareDataType`; the `data`/`object` hack swaps in the first segment of
the route's method; an `'array'` type attaches `items` read from
`accepts.type[0]`, the one spot that can throw. -/
def acceptToParameter (route : Route) (acc : JObj) : Except String Param :=
  let dflt := if toLowerStr route.verb = "get" then "query" else "form"
  let name := jOr (oGet acc "name") (oGet acc "arg")
  let paramType1 := if strContains route.path (":" ++ jstring name) then JVal.str "path" else JVal.str dflt
  let httpv := oGet acc "http"
  let paramType2 := if truthy httpv && truthy (jGet httpv "source") then jGet httpv "source" else paramType1
  let type1 := jOr (oGet acc "model") (prepareDataType (oGet acc "type"))
  let type2 := if isStr name "data" && isStr type1 "object" then JVal.str (headSegment route.method) else type1
  if isStr type2 "array" then
    match jIndex0 (oGet acc "type") with
    | .ok e =>
      .ok { paramType := jOr paramType2 (.str dflt), name := name,
            description := oGet acc "description", type := type2,
            required := truthy (oGet acc "required"),
            defaultValue := oGet acc "defaultValue",
            minimum := oGet acc "minimum", maximum := oGet acc "maximum",
            allowMultiple := false,
            items := some (.obj [("type", prepareDataType e)]) }
    | .error msg => .error msg
  else
    .ok { paramType := jOr paramType2 (.str dflt), name := name,
          description := oGet acc "description", type := type2,
          required := truthy (oGet acc "required"),
          defaultValue := oGet acc "defaultValue",
          minimum := oGet acc "minimum", maximum := oGet acc "maximum",
          allowMultiple := false, items := none }

/-- The function `routeToAPI(route)`: the Swagger API record for one (already
processed) route — converted path plus a single operation. -/
def routeToAPI (route : Route) : Except String API :=
  let returnDesc : Option JObj :=
    match route.returns with
    | some rs => rs.head?
    | none => none
  match (match route.accepts with
         | some accs => accs.mapM (acceptToParameter route)
         | none => Except.ok []) with
  | .error e => .error e
  | .ok params =>
    .ok { path := convertPathFragments route.path
          operations := [{
            method := convertVerb route.verb
            nickname := String.mk (route.method.toList.map (fun c => if c = '.' then '_' else c))
            type := (match returnDesc with
                     | some r => jOr (oGet r "model") (prepareDataType (oGet r "type"))
                     | none => JVal.str "void")
            items := (match returnDesc with
                      | some r => oGet r "items"
                      | none => JVal.str "")
            parameters := params
            responseMessages := []
            summary := route.description
            notes := "" }] }

/-- The merge step of `addRouteToDoc`: if some existing API shares the
candidate's path, push the candidate's single operation onto the first
such API, else append the candidate record. -/
def addAPIToApis : List API → API → List API
  | [], api => [api]
  | a :: rest, api =>
    if a.path = api.path then
      { a with operations := a.operations ++ api.operations.take 1 } :: rest
    else a :: addAPIToApis rest api

/-- The function `addRouteToDoc(route, doc)`: convert the route and merge it into the
document (the conversion runs before the document is touched, so a thrown
`TypeError` leaves the document unchanged). -/
def addRouteToDoc (route : Route) (doc : Doc) : Except String Doc :=
  match routeToAPI route with
  | .error e => .error e
  | .ok api => .ok { apis := addAPIToApis doc.apis api }

/-- The public entry `routeHelper.addRouteToAPIDeclaration(route, classDef, doc)`. -/
def addRouteToAPIDeclaration (route : Route) (classDef : ClassDef) (doc : Doc) : Except String Doc :=
  addRouteToDoc (doRouteParameterHacks route classDef) doc

/-- A sequence of `addRouteToAPIDeclaration` calls threading the document:
a thrown `TypeError` propagates to the caller, aborting the sequence with
the document as it was before the failing call. -/
def runCalls : List (Route × ClassDef) → Doc → Doc
  | [], doc => doc
  | (r, c) :: rest, doc =>
    match addRouteToAPIDeclaration r c doc with
    | .ok doc1 => runCalls rest doc1
    | .error _ => doc

/-- State-passing account of the one in-place mutation
`doRouteParameterHacks` performs on data it does not own: the route is
deep-copied, but `concat` aliases the objects of
`classDef.sharedCtor.accepts` into the copy's accepts list, and
`translateKeys` then rewrites the surviving ones in place.  This function
returns the contents of `classDef.sharedCtor.accepts` after one
`addRouteToAPIDeclaration` call under JavaScript reference semantics. -/
def sharedCtorAcceptsAfter (route : Route) (classDef : ClassDef) : Option (List JObj) :=
  match classDef.sharedCtor with
  | none => none
  | some sc =>
    match sc.accepts with
    | none => none
    | some scAccepts =>
      if (splitOnChar '.' route.method).length > 2 then
        some (scAccepts.map (fun o => if acceptFilter o then translateKeys o else o))
      else some scAccepts

/-! ### Lemmas about the object primitives -/

theorem oGet_oSet_self (o : JObj) (k : String) (v : JVal) :
    oGet (oSet o k v) k = v := by
  induction o with
  | nil => simp [oSet, oGet]
  | cons p rest ih =>
    obtain ⟨k1, v1⟩ := p
    by_cases h : k1 = k
    · simp [oSet, oGet, h]
    · simp [oSet, oGet, h, ih]

theorem oGet_oSet_ne (o : JObj) (k k1 : String) (v : JVal) (h : k1 ≠ k) :
    oGet (oSet o k v) k1 = oGet o k1 := by
  induction o with
  | nil => simp [oSet, oGet, Ne.symm h]
  | cons p rest ih =>
    obtain ⟨k2, v2⟩ := p
    by_cases hp : k2 = k
    · subst hp
      simp [oSet, oGet, Ne.symm h, h]
    · by_cases hp1 : k2 = k1 <;> simp [oSet, oGet, hp, hp1, h, ih]

theorem oGet_oDel_self (o : JObj) (k : String) :
    oGet (oDel o k) k = .undefined := by
  induction o with
  | nil => simp [oDel, oGet]
  | cons p rest ih =>
    obtain ⟨k1, v1⟩ := p
    by_cases h : k1 = k
    · simpa [oDel, h] using ih
    · simpa [oDel, oGet, h] using ih

theorem oGet_oDel_ne (o : JObj) (k k1 : String) (h : k1 ≠ k) :
    oGet (oDel o k) k1 = oGet o k1 := by
  induction o with
  | nil => simp [oDel]
  | cons p rest ih =>
    obtain ⟨k2, v2⟩ := p
    by_cases hp : k2 = k
    · subst hp
      simp [oDel, oGet, Ne.symm h, ih]
    · by_cases hp1 : k2 = k1 <;> simp [oDel, oGet, hp, hp1, h, ih]

theorem oHas_oSet (o : JObj) (k k1 : String) (v : JVal) :
    oHas (oSet o k v) k1 = (k == k1 || oHas o k1) := by
  induction o with
  | nil => simp [oSet, oHas]
  | cons p rest ih =>
    obtain ⟨k2, v2⟩ := p
    by_cases hp : k2 = k
    · subst hp
      simp [oSet, oHas]
    · simp only [oSet, if_neg hp, oHas, ih]
      cases hk : (k == k1) <;> cases hpk : (k2 == k1) <;> simp

theorem oHas_oDel (o : JObj) (k k1 : String) :
    oHas (oDel o k) k1 = (decide (k1 ≠ k) && oHas o k1) := by
  induction o with
  | nil => simp [oDel, oHas]
  | cons p rest ih =>
    obtain ⟨k2, v2⟩ := p
    by_cases hp : k2 = k
    · subst hp
      by_cases h1 : k1 = k2
      · subst h1
        simp [oDel, oHas, ih]
      · simp [oDel, oHas, h1, ih, Ne.symm h1]
    · by_cases hpk : k2 = k1
      · subst hpk
        simp [oDel, oHas, hp, Ne.symm hp]
      · have hb : (k2 == k1) = false := beq_eq_false_iff_ne.mpr hpk
        simp [oDel, oHas, hp, hb, ih]

theorem oDel_of_not_oHas (o : JObj) (k : String) (h : oHas o k = false) :
    oDel o k = o := by
  induction o with
  | nil => rfl
  | cons p rest ih =>
    obtain ⟨k1, v1⟩ := p
    simp only [oHas, Bool.or_eq_false_iff, beq_eq_false_iff_ne] at h
    simp [oDel, h.1, ih h.2]

theorem oGet_of_not_oHas (o : JObj) (k : String) (h : oHas o k = false) :
    oGet o k = .undefined := by
  induction o with
  | nil => rfl
  | cons p rest ih =>
    obtain ⟨k1, v1⟩ := p
    simp only [oHas, Bool.or_eq_false_iff, beq_eq_false_iff_ne] at h
    simp [oGet, h.1, ih h.2]

/-! ### Lemmas about one key-translation step -/

theorem translateKey_oGet_other (o : JObj) (p : String × String) (k : String)
    (h1 : k ≠ p.1) (h2 : k ≠ p.2) : oGet (translateKey o p) k = oGet o k := by
  unfold translateKey
  by_cases ht : truthy (oGet o p.1) <;>
    simp [ht, oGet_oDel_ne _ _ _ h1, oGet_oSet_ne _ _ _ _ h2]

theorem translateKey_oHas_other (o : JObj) (p : String × String) (k : String)
    (h1 : k ≠ p.1) (h2 : k ≠ p.2) : oHas (translateKey o p) k = oHas o k := by
  unfold translateKey
  by_cases ht : truthy (oGet o p.1) <;>
    simp [ht, oHas_oDel, oHas_oSet, h1, beq_eq_false_iff_ne.mpr (Ne.symm h2)]

theorem translateKey_not_oHas_src (o : JObj) (p : String × String) :
    oHas (translateKey o p) p.1 = false := by
  unfold translateKey
  by_cases ht : truthy (oGet o p.1) <;> simp [ht, oHas_oDel]

theorem translateKey_oGet_dst (o : JObj) (p : String × String) (hne : p.1 ≠ p.2) :
    oGet (translateKey o p) p.2 =
      if truthy (oGet o p.1) then
        (if p.1 = "min" ∨ p.1 = "max" then .str (jstring (oGet o p.1)) else oGet o p.1)
      else oGet o p.2 := by
  unfold translateKey
  by_cases ht : truthy (oGet o p.1) <;>
    simp [ht, oGet_oDel_ne _ _ _ (Ne.symm hne), oGet_oSet_self]

theorem translateKey_id_of_absent (o : JObj) (p : String × String)
    (h : oHas o p.1 = false) : translateKey o p = o := by
  unfold translateKey
  rw [oGet_of_not_oHas o p.1 h]
  simp [truthy, oDel_of_not_oHas o p.1 h]

theorem translateKeys_as_steps (o : JObj) :
    translateKeys o =
      translateKey (translateKey (translateKey (translateKey o ("doc", "description"))
        ("default", "defaultValue")) ("min", "minimum")) ("max", "maximum") := rfl

/-- After a full translation none of the four LDL source keys remains. -/
theorem translateKeys_src_absent (o : JObj) :
    oHas (translateKeys o) "doc" = false ∧ oHas (translateKeys o) "default" = false ∧
    oHas (translateKeys o) "min" = false ∧ oHas (translateKeys o) "max" = false := by
  rw [translateKeys_as_steps]
  refine ⟨?_, ?_, ?_, ?_⟩
  · rw [translateKey_oHas_other _ _ _ (by decide) (by decide),
      translateKey_oHas_other _ _ _ (by decide) (by decide),
      translateKey_oHas_other _ _ _ (by decide) (by decide)]
    exact translateKey_not_oHas_src _ _
  · rw [translateKey_oHas_other _ _ _ (by decide) (by decide),
      translateKey_oHas_other _ _ _ (by decide) (by decide)]
    exact translateKey_not_oHas_src _ _
  · rw [translateKey_oHas_other _ _ _ (by decide) (by decide)]
    exact translateKey_not_oHas_src _ _
  · exact translateKey_not_oHas_src _ _

/-- Keys outside the translation table (sources and destinations alike)
are untouched by a full translation. -/
theorem translateKeys_oGet_notin (o : JObj) (k : String)
    (h : k ∉ (["doc", "default", "min", "max",
               "description", "defaultValue", "minimum", "maximum"] : List String)) :
    oGet (translateKeys o) k = oGet o k := by
  simp only [List.mem_cons, List.not_mem_nil, or_false, not_or] at h
  obtain ⟨h1, h2, h3, h4, h5, h6, h7, h8⟩ := h
  rw [translateKeys_as_steps,
    translateKey_oGet_other _ _ _ h4 h8, translateKey_oGet_other _ _ _ h3 h7,
    translateKey_oGet_other _ _ _ h2 h6, translateKey_oGet_other _ _ _ h1 h5]

theorem translateKeys_oHas_notin (o : JObj) (k : String)
    (h : k ∉ (["doc", "default", "min", "max",
               "description", "defaultValue", "minimum", "maximum"] : List String)) :
    oHas (translateKeys o) k = oHas o k := by
  simp only [List.mem_cons, List.not_mem_nil, or_false, not_or] at h
  obtain ⟨h1, h2, h3, h4, h5, h6, h7, h8⟩ := h
  rw [translateKeys_as_steps,
    translateKey_oHas_other _ _ _ h4 h8, translateKey_oHas_other _ _ _ h3 h7,
    translateKey_oHas_other _ _ _ h2 h6, translateKey_oHas_other _ _ _ h1 h5]

/-- C4: `translateKeys` implements the fixed table `doc` to `description`,
`default` to `defaultValue`, `min` to `minimum`, `max` to `maximum`: a
truthy source value is written under the destination key (stringified for
`min` and `max`), the source key is always deleted, a falsy source value
is deleted without the destination key being written, and keys outside the
table keep both their value and their presence. -/
theorem claim4_translateKeys_table (o : JObj) :
    oHas (translateKeys o) "doc" = false ∧
    oHas (translateKeys o) "default" = false ∧
    oHas (translateKeys o) "min" = false ∧
    oHas (translateKeys o) "max" = false ∧
    oGet (translateKeys o) "description" =
      (if truthy (oGet o "doc") then oGet o "doc" else oGet o "description") ∧
    oGet (translateKeys o) "defaultValue" =
      (if truthy (oGet o "default") then oGet o "default" else oGet o "defaultValue") ∧
    oGet (translateKeys o) "minimum" =
      (if truthy (oGet o "min") then .str (jstring (oGet o "min")) else oGet o "minimum") ∧
    oGet (translateKeys o) "maximum" =
      (if truthy (oGet o "max") then .str (jstring (oGet o "max")) else oGet o "maximum") ∧
    ∀ k, k ∉ (["doc", "default", "min", "max",
               "description", "defaultValue", "minimum", "maximum"] : List String) →
      oGet (translateKeys o) k = oGet o k ∧ oHas (translateKeys o) k = oHas o k := by
  obtain ⟨h1, h2, h3, h4⟩ := translateKeys_src_absent o
  refine ⟨h1, h2, h3, h4, ?_, ?_, ?_, ?_,
    fun k hk => ⟨translateKeys_oGet_notin o k hk, translateKeys_oHas_notin o k hk⟩⟩
  · rw [translateKeys_as_steps,
      translateKey_oGet_other _ _ _ (by decide) (by decide),
      translateKey_oGet_other _ _ _ (by decide) (by decide),
      translateKey_oGet_other _ _ _ (by decide) (by decide),
      translateKey_oGet_dst _ _ (by decide)]
    simp
  · rw [translateKeys_as_steps,
      translateKey_oGet_other _ _ _ (by decide) (by decide),
      translateKey_oGet_other _ _ _ (by decide) (by decide),
      translateKey_oGet_dst _ _ (by decide),
      translateKey_oGet_other _ _ _ (by decide) (by decide),
      translateKey_oGet_other _ _ _ (by decide) (by decide)]
    simp
  · rw [translateKeys_as_steps,
      translateKey_oGet_other _ _ _ (by decide) (by decide),
      translateKey_oGet_dst _ _ (by decide),
      translateKey_oGet_other _ _ _ (by decide) (by decide),
      translateKey_oGet_other _ _ _ (by decide) (by decide),
      translateKey_oGet_other _ _ _ (by decide) (by decide),
      translateKey_oGet_other _ _ _ (by decide) (by decide)]
    simp
  · rw [translateKeys_as_steps,
      translateKey_oGet_dst _ _ (by decide),
      translateKey_oGet_other _ _ _ (by decide) (by decide),
      translateKey_oGet_other _ _ _ (by decide) (by decide),
      translateKey_oGet_other _ _ _ (by decide) (by decide),
      translateKey_oGet_other _ _ _ (by decide) (by decide),
      translateKey_oGet_other _ _ _ (by decide) (by decide),
      translateKey_oGet_other _ _ _ (by decide) (by decide)]
    simp

/-- Witness for C4 at a concrete object: `min` is stringified and deleted,
a falsy `doc` is deleted without writing `description`, and the untouched
key `foo` survives unchanged. -/
theorem claim4_translateKeys_table_witness :
    oGet (translateKeys [("min", .num 3), ("doc", .str ""), ("foo", .num 7)]) "foo" = .num 7 ∧
    oHas (translateKeys [("min", .num 3), ("doc", .str ""), ("foo", .num 7)]) "foo" = true ∧
    oGet (translateKeys [("min", .num 3), ("doc", .str ""), ("foo", .num 7)]) "minimum" = .str "3" ∧
    oHas (translateKeys [("min", .num 3), ("doc", .str ""), ("foo", .num 7)]) "min" = false ∧
    oHas (translateKeys [("min", .num 3), ("doc", .str ""), ("foo", .num 7)]) "description" = false := by
  have h := claim4_translateKeys_table [("min", .num 3), ("doc", .str ""), ("foo", .num 7)]
  have hfoo := h.2.2.2.2.2.2.2.2 "foo" (by decide)
  refine ⟨?_, ?_, ?_, h.2.2.1, ?_⟩
  · rw [hfoo.1]; rfl
  · rw [hfoo.2]; rfl
  · rw [h.2.2.2.2.2.2.1]; rfl
  · rfl

/-- C9: `translateKeys` is idempotent — after one application all four
source keys are gone, so a second application changes nothing. -/
theorem claim9_translateKeys_idem (o : JObj) :
    translateKeys (translateKeys o) = translateKeys o := by
  obtain ⟨h1, h2, h3, h4⟩ := translateKeys_src_absent o
  have s1 : translateKey (translateKeys o) ("doc", "description") = translateKeys o :=
    translateKey_id_of_absent _ _ h1
  have s2 : translateKey (translateKeys o) ("default", "defaultValue") = translateKeys o :=
    translateKey_id_of_absent _ _ h2
  have s3 : translateKey (translateKeys o) ("min", "minimum") = translateKeys o :=
    translateKey_id_of_absent _ _ h3
  rw [translateKeys_as_steps (translateKeys o), s1, s2, s3]
  exact translateKey_id_of_absent _ _ h4

/-- C1: when the optional fields are absent (no `accepts`, no `returns`,
no `description`, no `sharedCtor`), the conversion never throws: the whole
`addRouteToAPIDeclaration` call returns a document, the route converts to
exactly one operation, an absent `returns` yields operation type
`'void'`, and an absent `accepts` yields an empty parameters list. -/
theorem claim1_missing_fields_degrade (path verb method name : String) (doc : Doc) :
    (∃ doc1, addRouteToAPIDeclaration
        { path := path, verb := verb, method := method,
          accepts := none, returns := none, description := none }
        { name := name, sharedCtor := none } doc = .ok doc1) ∧
    routeToAPI (doRouteParameterHacks
        { path := path, verb := verb, method := method,
          accepts := none, returns := none, description := none }
        { name := name, sharedCtor := none }) =
      .ok { path := convertPathFragments path
            operations := [{
              method := convertVerb verb
              nickname := String.mk (method.toList.map (fun c => if c = '.' then '_' else c))
              type := .str "void"
              items := .str ""
              parameters := []
              responseMessages := []
              summary := none
              notes := "" }] } :=
  ⟨⟨_, rfl⟩, rfl⟩

/-- C2 is refuted by the code: under a deep method (`dot`-depth 3), the
single object inside `classDef.sharedCtor.accepts` is aliased into the
cloned route's accepts list and then translated in place — after the call
its `doc` key has become `description`, so the objects inside
`classDef.sharedCtor.accepts` are not unchanged. -/
theorem claim2_sharedCtor_accepts_mutated :
    sharedCtorAcceptsAfter
      { path := "/w", verb := "get", method := "Widget.prototype.find",
        accepts := none, returns := none, description := none }
      { name := "Widget", sharedCtor := some { accepts := some [[("doc", .str "x")]] } } =
      some [[("description", .str "x")]] ∧
    ([("description", JVal.str "x")] : JObj) ≠ [("doc", JVal.str "x")] := by
  refine ⟨rfl, ?_⟩
  intro h
  have h1 : ("description", JVal.str "x") = ("doc", JVal.str "x") := by
    injection h
  have h2 : "description" = "doc" := congrArg Prod.fst h1
  exact absurd h2 (by decide)

/-- C8: the shared-constructor accepts are appended exactly when the
method is deep: with `classDef.sharedCtor.accepts` present, a dotted
`method` of more than two segments appends them after the route's own
accepts, while two or fewer segments — or an absent `sharedCtor` or
absent `sharedCtor.accepts` — leaves the accepts untouched. -/
theorem claim8_sharedCtor_append_iff_deep (route : Route) (cd : ClassDef) :
    (∀ sc scAcc, cd.sharedCtor = some sc → sc.accepts = some scAcc →
      ((splitOnChar '.' route.method).length > 2 →
        preAccepts route cd = some (route.accepts.getD [] ++ scAcc)) ∧
      ((splitOnChar '.' route.method).length ≤ 2 →
        preAccepts route cd = route.accepts)) ∧
    (cd.sharedCtor = none → preAccepts route cd = route.accepts) ∧
    (∀ sc, cd.sharedCtor = some sc → sc.accepts = none →
      preAccepts route cd = route.accepts) := by
  refine ⟨fun sc scAcc h1 h2 => ⟨fun hdeep => ?_, fun hshallow => ?_⟩,
    fun h1 => ?_, fun sc h1 h2 => ?_⟩
  · simp [preAccepts, h1, h2, hdeep]
  · simp [preAccepts, h1, h2, Nat.not_lt.mpr hshallow]
  · simp [preAccepts, h1]
  · simp [preAccepts, h1, h2]

/-- Witness for C8: a three-segment method appends the constructor
accepts, a two-segment one does not. -/
theorem claim8_sharedCtor_append_iff_deep_witness :
    preAccepts
      { path := "/w", verb := "get", method := "Widget.prototype.find",
        accepts := some [[("arg", .str "id")]], returns := none, description := none }
      { name := "Widget", sharedCtor := some { accepts := some [[("arg", .str "c")]] } } =
      some [[("arg", .str "id")], [("arg", .str "c")]] ∧
    preAccepts
      { path := "/w", verb := "get", method := "Widget.find",
        accepts := some [[("arg", .str "id")]], returns := none, description := none }
      { name := "Widget", sharedCtor := some { accepts := some [[("arg", .str "c")]] } } =
      some [[("arg", .str "id")]] := by
  constructor
  · exact ((claim8_sharedCtor_append_iff_deep _ _).1 _ _ rfl rfl).1 (by decide)
  · exact ((claim8_sharedCtor_append_iff_deep _ _).1 _ _ rfl rfl).2 (by decide)

/-- C10: when an accepts entry declares `type` as the literal string
`'array'` (and no truthy `model`), the mapper still evaluates
`accepts.type[0]`, indexing the string's first character, so the emitted
parameter carries `items = \x7b type: 'a' \x7d`; a declared `type` that is
an actual array instead yields the element type mapped through
`prepareDataType`. -/
theorem claim10_string_array_indexes_first_char (route : Route) (acc : JObj)
    (htype : oGet acc "type" = .str "array")
    (hmodel : truthy (oGet acc "model") = false) :
    ((acceptToParameter route acc).map Param.type = .ok (.str "array") ∧
     (acceptToParameter route acc).map Param.items =
       .ok (some (.obj [("type", .str "a")]))) ∧
    (∀ acc2 e rest, oGet acc2 "type" = .arr (e :: rest) →
      truthy (oGet acc2 "model") = false →
      (acceptToParameter route acc2).map Param.type = .ok (.str "array") ∧
      (acceptToParameter route acc2).map Param.items =
        .ok (some (.obj [("type", prepareDataType e)]))) := by
  constructor
  · have hprep : prepareDataType (JVal.str "array") = .str "array" := rfl
    have hidx : jIndex0 (JVal.str "array") = .ok (.str "a") := rfl
    have ho : isStr (JVal.str "array") "object" = false := rfl
    have ha : isStr (JVal.str "array") "array" = true := rfl
    have hpa : prepareDataType (JVal.str "a") = .str "a" := rfl
    constructor <;>
      simp [acceptToParameter, jOr, htype, hmodel, hprep, hidx, ho, ha, hpa, Except.map]
  · intro acc2 e rest htype2 hmodel2
    have hprep : prepareDataType (JVal.arr (e :: rest)) = .str "array" := rfl
    have hidx : jIndex0 (JVal.arr (e :: rest)) = .ok e := rfl
    have ho : isStr (JVal.str "array") "object" = false := rfl
    have ha : isStr (JVal.str "array") "array" = true := rfl
    constructor <;>
      simp [acceptToParameter, jOr, htype2, hmodel2, hprep, hidx, ho, ha, Except.map]

/-- Witness for C10 at a GET route and the entry
`\x7b arg: 't', type: 'array' \x7d`. -/
theorem claim10_string_array_indexes_first_char_witness :
    (acceptToParameter
        { path := "/w", verb := "get", method := "W.f",
          accepts := none, returns := none, description := none }
        [("arg", .str "t"), ("type", .str "array")]).map Param.items =
      .ok (some (.obj [("type", .str "a")])) :=
  (claim10_string_array_indexes_first_char
    { path := "/w", verb := "get", method := "W.f",
      accepts := none, returns := none, description := none }
    [("arg", .str "t"), ("type", .str "array")] rfl rfl).1.2

/-- An argument whose `http` is a function, or whose `http.source` is
`'req'` or `'body'`, fails the accepts filter. -/
theorem acceptFilter_eq_false (a : JObj)
    (h : (oGet a "http").isFn = true ∨
         isStr (jGet (oGet a "http") "source") "req" = true ∨
         isStr (jGet (oGet a "http") "source") "body" = true) :
    acceptFilter a = false := by
  rcases h with h | h | h <;>
    cases hv : oGet a "http" <;>
      rw [hv] at h <;>
      simp [JVal.isFn, jGet, isStr] at h <;>
      simp [acceptFilter, hv, truthy, JVal.isFn, jGet, isStr, h]

/-- An argument without an `http` key passes the accepts filter. -/
theorem acceptFilter_eq_true_of_no_http (a : JObj) (h : oHas a "http" = false) :
    acceptFilter a = true := by
  simp [acceptFilter, oGet_of_not_oHas a _ h, truthy]

/-- C7: parameter filtering — an accepts entry whose `http` is a function
or whose `http.source` is `'req'` or `'body'` never survives the filter
stage that produces the operation's parameters; an entry without an
`http` key always survives; the surviving entries keep their relative
order (the filtered list is a sublist); and the processed route's accepts
are exactly the filtered entries, translated. -/
theorem claim7_parameter_filtering (route : Route) (cd : ClassDef) (pre : List JObj) :
    (doRouteParameterHacks route cd).accepts =
      some ((((preAccepts route cd).getD []).filter acceptFilter).map translateKeys) ∧
    (∀ a, ((oGet a "http").isFn = true ∨
           isStr (jGet (oGet a "http") "source") "req" = true ∨
           isStr (jGet (oGet a "http") "source") "body" = true) →
       a ∉ pre.filter acceptFilter) ∧
    (∀ a ∈ pre, oHas a "http" = false → a ∈ pre.filter acceptFilter) ∧
    (pre.filter acceptFilter).Sublist pre := by
  refine ⟨rfl, ?_, ?_, List.filter_sublist pre⟩
  · intro a ha hmem
    rw [List.mem_filter] at hmem
    rw [acceptFilter_eq_false a ha] at hmem
    exact absurd hmem.2 (by simp)
  · intro a hmem hh
    exact List.mem_filter.mpr ⟨hmem, acceptFilter_eq_true_of_no_http a hh⟩

/-- Witness for C7: a body-sourced entry is dropped, a plain entry kept. -/
theorem claim7_parameter_filtering_witness :
    ([("http", JVal.obj [("source", JVal.str "body")])] : JObj) ∉
      ([[("http", JVal.obj [("source", JVal.str "body")])],
        [("arg", JVal.str "x")]] : List JObj).filter acceptFilter ∧
    ([("arg", JVal.str "x")] : JObj) ∈
      ([[("http", JVal.obj [("source", JVal.str "body")])],
        [("arg", JVal.str "x")]] : List JObj).filter acceptFilter := by
  have h := claim7_parameter_filtering
    { path := "/w", verb := "get", method := "W.f",
      accepts := none, returns := none, description := none }
    { name := "W", sharedCtor := none }
    [[("http", JVal.obj [("source", JVal.str "body")])], [("arg", JVal.str "x")]]
  exact ⟨h.2.1 _ (Or.inr (Or.inr rfl)), h.2.2.1 _ (by simp) rfl⟩

/-- C6 (amended): paramType resolution order — highest priority goes to a
declared and truthy `http.source`, used verbatim; otherwise `'path'` when
the route's path contains the substring `:` followed by the resolved name
(naive substring match); otherwise the default, `'query'` for a GET verb
case-insensitively and `'form'` for anything else.  (A declared but falsy
`http.source`, such as the empty string, is ignored — see the
counterexample.) -/
theorem claim6_paramType_priority (route : Route) (acc : JObj) (p : Param)
    (h : acceptToParameter route acc = .ok p) :
    p.paramType =
      (if truthy (oGet acc "http") && truthy (jGet (oGet acc "http") "source") then
        jGet (oGet acc "http") "source"
      else if strContains route.path
          (":" ++ jstring (jOr (oGet acc "name") (oGet acc "arg"))) then
        .str "path"
      else if toLowerStr route.verb = "get" then .str "query" else .str "form") := by
  simp only [acceptToParameter] at h
  have hpt : p.paramType =
      jOr (if truthy (oGet acc "http") && truthy (jGet (oGet acc "http") "source") then
             jGet (oGet acc "http") "source"
           else if strContains route.path
               (":" ++ jstring (jOr (oGet acc "name") (oGet acc "arg"))) then
             JVal.str "path"
           else JVal.str (if toLowerStr route.verb = "get" then "query" else "form"))
        (.str (if toLowerStr route.verb = "get" then "query" else "form")) := by
    split at h
    all_goals split at h
    all_goals try (cases h; rfl)
    all_goals
      rcases hj : jIndex0 (oGet acc "type") with msg | e <;>
        rw [hj] at h <;> cases h <;> rfl
  rw [hpt]
  simp only [jOr]
  by_cases hsrc : (truthy (oGet acc "http") && truthy (jGet (oGet acc "http") "source")) = true
  · obtain ⟨hh, ht⟩ := Bool.and_eq_true _ _ |>.mp hsrc
    simp [hh, ht]
  · simp only [if_neg hsrc]
    by_cases hpath : strContains route.path
        (":" ++ jstring (if truthy (oGet acc "name") = true then
          oGet acc "name" else oGet acc "arg")) = true
    · simp only [if_pos hpath]
      have h1 : truthy (JVal.str "path") = true := rfl
      rw [if_pos h1]
    · simp only [if_neg hpath]
      by_cases hget : toLowerStr route.verb = "get"
      · simp only [if_pos hget]
        have h1 : truthy (JVal.str "query") = true := rfl
        rw [if_pos h1]
      · simp only [if_neg hget]
        have h1 : truthy (JVal.str "form") = true := rfl
        rw [if_pos h1]

/-- C6 counterexample: a parameter that declares `http.source` as the
empty string does not get it verbatim — the falsy source is ignored and
the default `'query'` wins, refuting "overridden whenever http.source is
present". -/
theorem claim6_paramType_priority_cex :
    (acceptToParameter
        { path := "/w", verb := "get", method := "W.f",
          accepts := none, returns := none, description := none }
        [("name", .str "n"), ("http", .obj [("source", .str "")])]).map Param.paramType =
      .ok (.str "query") ∧
    JVal.str "query" ≠ JVal.str "" := by
  refine ⟨rfl, ?_⟩
  intro hcontra
  have : "query" = "" := by injection hcontra
  exact absurd this (by decide)

/-- Witness for C6 at a concrete parameter whose `http.source` is
`'header'`: the source wins over both the `:name` path match and the GET
default. -/
theorem claim6_paramType_priority_witness :
    ∃ p, acceptToParameter
        { path := "/w/:id", verb := "get", method := "W.f",
          accepts := none, returns := none, description := none }
        [("name", .str "id"), ("http", .obj [("source", .str "header")])] = .ok p ∧
      p.paramType = .str "header" := by
  obtain ⟨p, hp⟩ : ∃ p, acceptToParameter
      { path := "/w/:id", verb := "get", method := "W.f",
        accepts := none, returns := none, description := none }
      [("name", .str "id"), ("http", .obj [("source", .str "header")])] = .ok p := ⟨_, rfl⟩
  refine ⟨p, hp, ?_⟩
  rw [claim6_paramType_priority _ _ p hp]
  rfl

/-- A nonempty string outside the primitive table passes through the
data-type mapper unchanged. -/
theorem prepareDataType_str_id (s : String) (h1 : s ≠ "")
    (h2 : s ∉ (["buffer", "date", "number"] : List String)) :
    prepareDataType (.str s) = .str s := by
  simp only [List.mem_cons, List.not_mem_nil, or_false, not_or] at h2
  obtain ⟨hb, hd, hn⟩ := h2
  have he : s.isEmpty = false := by
    rcases hq : s.isEmpty with _ | _
    · rfl
    · exact absurd ((String.isEmpty_iff s).mp hq) h1
  simp [prepareDataType, truthy, isStr, JVal.isArr, he, hb, hd, hn]

/-- The operation built by `routeToAPI` carries the type and items of the
first returns entry. -/
theorem routeToAPI_type_items (route : Route) (r0 : JObj) (rs : List JObj)
    (hret : route.returns = some (r0 :: rs)) (api : API)
    (h : routeToAPI route = .ok api) :
    api.operations.map Operation.type =
      [jOr (oGet r0 "model") (prepareDataType (oGet r0 "type"))] ∧
    api.operations.map Operation.items = [oGet r0 "items"] := by
  unfold routeToAPI at h
  rw [hret] at h
  simp only [List.head?] at h
  split at h
  · cases h
  · cases h
    constructor <;> simp [jOr]

/-- C5 (amended): return-type fixup — the fixup step never changes
`returns` entries beyond the first, and leaves a first entry whose `arg`
is not `'data'` alone; when the first entry has `arg === 'data'` and no
truthy `model` (a truthy `model` takes priority over the fixed-up type),
an `'object'` type makes the resulting operation's type the class's name
provided the name passes the data-type mapper unchanged (nonempty and not
`buffer`/`date`/`number`), and an `'array'` type keeps the operation type
`'array'` and sets its items to `\x7b '$ref': classDef.name \x7d`. -/
theorem claim5_return_fixup (route : Route) (cd : ClassDef) (r0 : JObj) (rest : List JObj)
    (hr : route.returns = some (r0 :: rest)) :
    ((returnsFixup cd.name (r0 :: rest)).drop 1 = rest) ∧
    (isStr (oGet r0 "arg") "data" = false →
      returnsFixup cd.name (r0 :: rest) = r0 :: rest) ∧
    (isStr (oGet r0 "arg") "data" = true → truthy (oGet r0 "model") = false →
      ((oGet r0 "type" = .str "object" → cd.name ≠ "" →
        cd.name ∉ (["buffer", "date", "number"] : List String) →
        ∀ api, routeToAPI (doRouteParameterHacks route cd) = .ok api →
          api.operations.map Operation.type = [.str cd.name]) ∧
      (oGet r0 "type" = .str "array" →
        ∀ api, routeToAPI (doRouteParameterHacks route cd) = .ok api →
          api.operations.map Operation.type = [.str "array"] ∧
          api.operations.map Operation.items = [.obj [("$ref", .str cd.name)]]))) := by
  refine ⟨?_, ?_, ?_⟩
  · simp only [returnsFixup]
    split_ifs <;> rfl
  · intro hargf
    simp [returnsFixup, hargf]
  · intro harg hmodel
    have hproc : (doRouteParameterHacks route cd).returns =
        some ((returnsFixup cd.name (r0 :: rest)).map translateKeys) := by
      simp [doRouteParameterHacks, hr]
    constructor
    · intro hobj hn1 hn2 api hapi
      have hfix : returnsFixup cd.name (r0 :: rest) =
          oSet r0 "type" (.str cd.name) :: rest := by
        have h1 : isStr (JVal.str "object") "object" = true := rfl
        simp [returnsFixup, harg, hobj, h1]
      rw [hfix, List.map_cons] at hproc
      have hti := routeToAPI_type_items _ _ _ hproc api hapi
      have hm : oGet (translateKeys (oSet r0 "type" (.str cd.name))) "model" =
          oGet r0 "model" := by
        rw [translateKeys_oGet_notin _ _ (by decide), oGet_oSet_ne _ _ _ _ (by decide)]
      have hty : oGet (translateKeys (oSet r0 "type" (.str cd.name))) "type" =
          .str cd.name := by
        rw [translateKeys_oGet_notin _ _ (by decide), oGet_oSet_self]
      rw [hti.1, hm, hty]
      simp [jOr, hmodel, prepareDataType_str_id cd.name hn1 hn2]
    · intro harr api hapi
      have hfix : returnsFixup cd.name (r0 :: rest) =
          oSet (oSet r0 "type" (.str "array")) "items"
            (.obj [("$ref", .str cd.name)]) :: rest := by
        have h1 : isStr (JVal.str "array") "object" = false := rfl
        have h2 : isStr (JVal.str "array") "array" = true := rfl
        simp [returnsFixup, harg, harr, h1, h2]
      rw [hfix, List.map_cons] at hproc
      have hti := routeToAPI_type_items _ _ _ hproc api hapi
      have hm : oGet (translateKeys (oSet (oSet r0 "type" (.str "array")) "items"
          (.obj [("$ref", .str cd.name)]))) "model" = oGet r0 "model" := by
        rw [translateKeys_oGet_notin _ _ (by decide), oGet_oSet_ne _ _ _ _ (by decide),
          oGet_oSet_ne _ _ _ _ (by decide)]
      have hty : oGet (translateKeys (oSet (oSet r0 "type" (.str "array")) "items"
          (.obj [("$ref", .str cd.name)]))) "type" = .str "array" := by
        rw [translateKeys_oGet_notin _ _ (by decide), oGet_oSet_ne _ _ _ _ (by decide),
          oGet_oSet_self]
      have hit : oGet (translateKeys (oSet (oSet r0 "type" (.str "array")) "items"
          (.obj [("$ref", .str cd.name)]))) "items" = .obj [("$ref", .str cd.name)] := by
        rw [translateKeys_oGet_notin _ _ (by decide), oGet_oSet_self]
      constructor
      · rw [hti.1, hm, hty]
        have hpa : prepareDataType (JVal.str "array") = .str "array" := rfl
        simp [jOr, hmodel, hpa]
      · rw [hti.2, hit]

/-- C5 counterexample: with a truthy `model` on the first returns entry,
the operation type is the model, not the class name — refuting the claim
that an `arg === 'data'`, `type === 'object'` entry always yields the
class's name. -/
theorem claim5_return_fixup_cex :
    (routeToAPI (doRouteParameterHacks
        { path := "/w", verb := "get", method := "W.f", accepts := none,
          returns := some [[("arg", .str "data"), ("type", .str "object"),
                            ("model", .str "Custom")]],
          description := none }
        { name := "Widget", sharedCtor := none })).map
      (fun api => api.operations.map Operation.type) = .ok [JVal.str "Custom"] ∧
    JVal.str "Custom" ≠ JVal.str "Widget" := by
  refine ⟨rfl, ?_⟩
  intro hcontra
  have : "Custom" = "Widget" := by injection hcontra
  exact absurd this (by decide)

/-- Witness for C5 at a model-free `\x7b arg:'data', type:'object' \x7d`
entry against class `Widget`: the operation type is `'Widget'`. -/
theorem claim5_return_fixup_witness :
    ∃ api, routeToAPI (doRouteParameterHacks
        { path := "/w", verb := "get", method := "W.f", accepts := none,
          returns := some [[("arg", .str "data"), ("type", .str "object")]],
          description := none }
        { name := "Widget", sharedCtor := none }) = .ok api ∧
      api.operations.map Operation.type = [.str "Widget"] := by
  obtain ⟨api, hapi⟩ : ∃ api, routeToAPI (doRouteParameterHacks
      { path := "/w", verb := "get", method := "W.f", accepts := none,
        returns := some [[("arg", .str "data"), ("type", .str "object")]],
        description := none }
      { name := "Widget", sharedCtor := none }) = .ok api := ⟨_, rfl⟩
  have h := claim5_return_fixup
    { path := "/w", verb := "get", method := "W.f", accepts := none,
      returns := some [[("arg", .str "data"), ("type", .str "object")]],
      description := none }
    { name := "Widget", sharedCtor := none }
    [("arg", .str "data"), ("type", .str "object")] [] rfl
  exact ⟨api, hapi, ((h.2.2 rfl rfl).1 rfl (by decide) (by decide)) api hapi⟩

/-! ### Lemmas about the document merge -/

theorem addAPIToApis_map_path (apis : List API) (api : API) :
    (addAPIToApis apis api).map API.path =
      if api.path ∈ apis.map API.path then apis.map API.path
      else apis.map API.path ++ [api.path] := by
  induction apis with
  | nil => simp [addAPIToApis]
  | cons a rest ih =>
    by_cases hp : a.path = api.path
    · have hm : api.path ∈ (a :: rest).map API.path := by simp [hp.symm]
      simp [addAPIToApis, hp, hm]
    · by_cases hmem : api.path ∈ rest.map API.path <;>
        simp [addAPIToApis, hp, ih, hmem, Ne.symm hp]

theorem addAPIToApis_nodup (apis : List API) (api : API)
    (h : (apis.map API.path).Nodup) :
    ((addAPIToApis apis api).map API.path).Nodup := by
  rw [addAPIToApis_map_path]
  by_cases hmem : api.path ∈ apis.map API.path
  · simpa [hmem] using h
  · simp [hmem, h, List.nodup_append]

theorem addAPIToApis_not_mem (apis : List API) (api : API)
    (h : api.path ∉ apis.map API.path) :
    addAPIToApis apis api = apis ++ [api] := by
  induction apis with
  | nil => simp [addAPIToApis]
  | cons b rest ih =>
    simp only [List.map_cons, List.mem_cons, not_or] at h
    have hb : ¬b.path = api.path := fun hb => h.1 hb.symm
    simp [addAPIToApis, hb, ih h.2]

theorem addAPIToApis_mem (apis : List API) (api : API)
    (h : api.path ∈ apis.map API.path) :
    ∃ pre a post, apis = pre ++ a :: post ∧ api.path ∉ pre.map API.path ∧
      a.path = api.path ∧
      addAPIToApis apis api =
        pre ++ { a with operations := a.operations ++ api.operations.take 1 } :: post := by
  induction apis with
  | nil => simp at h
  | cons b rest ih =>
    by_cases hp : b.path = api.path
    · exact ⟨[], b, rest, rfl, by simp, hp, by simp [addAPIToApis, hp]⟩
    · have hmem : api.path ∈ rest.map API.path := by
        rw [List.map_cons] at h
        rcases List.mem_cons.mp h with he | hm
        · exact absurd he.symm hp
        · exact hm
      obtain ⟨pre, a, post, he, hnp, hap, heq⟩ := ih hmem
      refine ⟨b :: pre, a, post, by simp [he], ?_, hap, ?_⟩
      · simp [hnp, Ne.symm hp]
      · simp [addAPIToApis, hp, heq]

theorem addRouteToAPIDeclaration_ok (r : Route) (c : ClassDef) (doc doc1 : Doc)
    (h : addRouteToAPIDeclaration r c doc = .ok doc1) :
    ∃ api, routeToAPI (doRouteParameterHacks r c) = .ok api ∧
      doc1 = { apis := addAPIToApis doc.apis api } := by
  unfold addRouteToAPIDeclaration addRouteToDoc at h
  split at h
  · cases h
  · rename_i api heq
    cases h
    exact ⟨api, heq, rfl⟩

theorem runCalls_nodup (calls : List (Route × ClassDef)) (doc : Doc)
    (h : (doc.apis.map API.path).Nodup) :
    ((runCalls calls doc).apis.map API.path).Nodup := by
  induction calls generalizing doc with
  | nil => simpa [runCalls] using h
  | cons pc rest ih =>
    obtain ⟨r, c⟩ := pc
    cases hadd : addRouteToAPIDeclaration r c doc with
    | error e => simp only [runCalls, hadd]; exact h
    | ok d1 =>
      simp only [runCalls, hadd]
      obtain ⟨api, -, hd1⟩ := addRouteToAPIDeclaration_ok r c doc d1 hadd
      subst hd1
      exact ih _ (addAPIToApis_nodup _ _ h)

/-- C3: starting from a document whose `apis` have pairwise-distinct
paths, any sequence of `addRouteToAPIDeclaration` calls keeps the paths
distinct; each successful call merges the converted route's single
operation onto the first API with the same path (appending at the end of
its operations, i.e. in call order), and appends a whole new API record
when no entry shares the path. -/
theorem claim3_no_duplicate_paths (calls : List (Route × ClassDef)) (doc : Doc)
    (hnd : (doc.apis.map API.path).Nodup) (apis : List API) (api : API) :
    ((runCalls calls doc).apis.map API.path).Nodup ∧
    (∀ r c d d1, addRouteToAPIDeclaration r c d = .ok d1 →
      ∃ a, routeToAPI (doRouteParameterHacks r c) = .ok a ∧
        d1 = { apis := addAPIToApis d.apis a }) ∧
    (api.path ∉ apis.map API.path → addAPIToApis apis api = apis ++ [api]) ∧
    (api.path ∈ apis.map API.path →
      ∃ pre a post, apis = pre ++ a :: post ∧ api.path ∉ pre.map API.path ∧
        a.path = api.path ∧
        addAPIToApis apis api =
          pre ++ { a with operations := a.operations ++ api.operations.take 1 } :: post) :=
  ⟨runCalls_nodup calls doc hnd,
   fun r c d d1 h => addRouteToAPIDeclaration_ok r c d d1 h,
   fun h => addAPIToApis_not_mem apis api h,
   fun h => addAPIToApis_mem apis api h⟩

/-- Witness for C3: two routes with the same path and different verbs,
converted into the empty document, keep the paths distinct and yield one
API entry whose operations are `GET` then `POST`, in call order. -/
theorem claim3_no_duplicate_paths_witness :
    ((runCalls
        [({ path := "/widgets", verb := "get", method := "Widget.find",
            accepts := none, returns := none, description := none },
          { name := "Widget", sharedCtor := none }),
         ({ path := "/widgets", verb := "post", method := "Widget.create",
            accepts := none, returns := none, description := none },
          { name := "Widget", sharedCtor := none })]
        { apis := [] }).apis.map API.path).Nodup ∧
    (runCalls
        [({ path := "/widgets", verb := "get", method := "Widget.find",
            accepts := none, returns := none, description := none },
          { name := "Widget", sharedCtor := none }),
         ({ path := "/widgets", verb := "post", method := "Widget.create",
            accepts := none, returns := none, description := none },
          { name := "Widget", sharedCtor := none })]
        { apis := [] }).apis.map (fun a => a.operations.map Operation.method) =
      [["GET", "POST"]] := by
  refine ⟨(claim3_no_duplicate_paths
    [({ path := "/widgets", verb := "get", method := "Widget.find",
        accepts := none, returns := none, description := none },
      { name := "Widget", sharedCtor := none }),
     ({ path := "/widgets", verb := "post", method := "Widget.create",
        accepts := none, returns := none, description := none },
      { name := "Widget", sharedCtor := none })]
    { apis := [] } (by simp) [] { path := "/x", operations := [] }).1, ?_⟩
  rfl

end RouteHelper
